import Mathlib

/-!
Shallow embedding of `compiler/qsc/src/interpret/stateful.rs`: the stateful,
incremental interpreter core (fragment dispatcher, symbol resolver, diagnostic
renderer, session construction).  External collaborators — the incremental
compiler, the pass pipeline, the statement evaluator and the frontend
compiler — are modelled as parameters: the fragments produced for a line, the
in-place fragment normalization, and the evaluation of one statement are
inputs to the embedded dispatcher, exactly as the Rust code receives them
through `compile_fragments`, `run_default_passes_for_fragment` and
`qsc_eval::eval_stmt`.
-/

namespace QscStateful

/-- Stable handle of one compiled package held in the package store
(`qsc_hir::hir::PackageId`). -/
abbrev PackageId := Nat

/-- Identifier of a declaration local to one package
(`qsc_hir::hir::LocalItemId`). -/
abbrev LocalItemId := Nat

/-- Global reference: package handle plus local item id (`GlobalId`). -/
structure GlobalId where
  package : PackageId
  item : LocalItemId
deriving DecidableEq

/-- Body of one callable declaration (`qsc_hir::hir::CallableDecl`); its
internal structure is external to this core, so it is abstracted to a token. -/
abbrev CallableDecl := Nat

/-- Kind of a compiled item (`qsc_hir::hir::ItemKind`): a callable
declaration, or any other item kind, which the dispatcher discards. -/
inductive ItemKind where
  | callable (decl : CallableDecl)
  | other
deriving DecidableEq

/-- One compiled item (`qsc_hir::hir::Item`): its local id and its kind. -/
structure Item where
  id : LocalItemId
  kind : ItemKind
deriving DecidableEq

/-- Executable statement (`qsc_hir::hir::Stmt`); opaque to this core. -/
abbrev Stmt := Nat

/-- Compile diagnostic of the incremental compiler (`incremental::Error`). -/
abbrev IncrError := Nat

/-- Runtime error of the evaluator (`qsc_eval::Error`). -/
abbrev EvalError := Nat

/-- Compile diagnostic of the frontend compiler (`compile::Error`), raised
only while compiling the interpreter's initial sources. -/
abbrev FrontendError := Nat

/-- Runtime value (`qsc_eval::val::Value`); only the unit value is
distinguished by this core, other values are abstracted to integers. -/
inductive Value where
  | unit
  | int (n : Int)
deriving DecidableEq

/-- One variable scope of the binding environment. -/
abbrev Scope := List (Nat × Value)

/-- Binding environment (`qsc_eval::Env`): an ordered sequence of scopes. -/
structure Env where
  scopes : List Scope
deriving DecidableEq

/-- Environment holding exactly one empty session scope
(`Env::with_empty_scope`). -/
def Env.with_empty_scope : Env := ⟨[[]]⟩

/-- One call-stack frame (`qsc_eval::debug` frame): the callee's global
reference and the location of the call site. -/
structure Frame where
  callee : GlobalId
  location : Nat
deriving DecidableEq

/-- Captured call stack at the moment of a runtime error (`CallStack`). -/
abbrev CallStack := List Frame

/-- Package contents addressable by local item id (`qsc_hir::hir::Package`). -/
structure Package where
  items : LocalItemId → Option Item

/-- One fully compiled unit held in the store
(`qsc_frontend::compile::CompileUnit`). -/
structure CompileUnit where
  package : Package

/-- Empty compile unit (`CompileUnit::default`). -/
def CompileUnit.default : CompileUnit := ⟨⟨fun _ => none⟩⟩

/-- Append-only store of compiled packages
(`qsc_frontend::compile::PackageStore`): handles index the insertion order
and are never reused or invalidated. -/
structure PackageStore where
  units : List CompileUnit

/-- Fresh, empty package store (`PackageStore::new`). -/
def PackageStore.new : PackageStore := ⟨[]⟩

/-- Insert a compile unit, returning the grown store and the stable handle
assigned to the unit (`PackageStore::insert`). -/
def PackageStore.insert (s : PackageStore) (u : CompileUnit) :
    PackageStore × PackageId :=
  (⟨s.units ++ [u]⟩, s.units.length)

/-- Read-only lookup of a package by handle (`PackageStore::get`). -/
def PackageStore.get (s : PackageStore) (id : PackageId) : Option CompileUnit :=
  s.units[id]?

/-- Fragment produced by compiling one line
(`qsc_frontend::incremental::Fragment`): an item, an executable statement, or
a batch of compile errors.  Per the data model the error batch holds one or
more diagnostics, so it is carried as a head diagnostic plus a tail. -/
inductive Fragment where
  | item (i : Item)
  | stmt (s : Stmt)
  | error (err : IncrError) (errs : List IncrError)
deriving DecidableEq

/-- State of the incremental compiler's id assigner, mutated in place by the
pass pipeline (`self.compiler.assigner_mut()`); opaque to this core. -/
abbrev Assigner := Nat

/-- Rendered form of one call-stack frame: the resolved callee declaration
with the call location, or a placeholder when resolution fails. -/
inductive RenderedFrame where
  | resolved (decl : CallableDecl) (location : Nat)
  | placeholder (location : Nat)
deriving DecidableEq

/-- Rendered call-stack trace: the error's own message first, then one
rendered entry per captured frame. -/
structure Trace where
  message : EvalError
  frames : List RenderedFrame
deriving DecidableEq

/-- Modelled from the spec: `format_call_stack` lives in
`interpret/debug.rs`, which is not part of the given sources.  Per §4.3 the
renderer resolves each frame's global reference through the injected
resolver to recover the callee for that call site, renders a placeholder for
a frame whose resolution fails, keeps one rendered entry per frame in a
fixed order, and attaches the error's own message first. -/
def format_call_stack (resolver : GlobalId → Option CallableDecl)
    (call_stack : CallStack) (error : EvalError) : Trace :=
  ⟨error,
    call_stack.map fun frame =>
      match resolver frame.callee with
      | some decl => RenderedFrame.resolved decl frame.location
      | none => RenderedFrame.placeholder frame.location⟩

/-- Kind of a line-level diagnostic (`LineErrorKind`): a compile error of the
incremental compiler, or a single runtime error. -/
inductive LineErrorKind where
  | compile (err : IncrError)
  | eval (err : EvalError)
deriving DecidableEq

/-- Line-level diagnostic (`LineError`): the offending line text, the error
kind, and an optional rendered call-stack trace. -/
structure LineError where
  source : String
  kind : LineErrorKind
  stack_trace : Option Trace
deriving DecidableEq

/-- Construction diagnostic (`CompileError`): a frontend compile error
attached to its source. -/
structure CompileError where
  error : FrontendError
deriving DecidableEq

/-- Session state of the interpreter (`struct Interpreter`): the frozen
package store, the reserved session package handle, the compiler's assigner
state, the session callable table, and the binding environment.  The callable
table (`IndexMap<LocalItemId, CallableDecl>`) is modelled by its lookup
function. -/
structure Interpreter where
  store : PackageStore
  package : PackageId
  assigner : Assigner
  callables : LocalItemId → Option CallableDecl
  env : Env

/-- Symbol resolver (`fn get_callable`): a session-package reference is
looked up in the session callable table only; any other reference is looked
up in the frozen store, failing uniformly when the package is absent, the
item is absent, or the item is not a callable declaration. -/
def get_callable (store : PackageStore)
    (callables : LocalItemId → Option CallableDecl) (package : PackageId)
    (id : GlobalId) : Option CallableDecl :=
  if id.package = package then
    callables id.item
  else
    (store.get id.package).bind fun unit =>
      match unit.package.items id.item with
      | none => none
      | some item =>
        match item.kind with
        | ItemKind.callable callable => some callable
        | _ => none

/-- Overwrite-on-collision insertion into the session callable table
(`IndexMap::insert`). -/
def insertCallable (callables : LocalItemId → Option CallableDecl)
    (id : LocalItemId) (decl : CallableDecl) :
    LocalItemId → Option CallableDecl :=
  fun j => if j = id then some decl else callables j

/-- Resolution capability built from the current session state, as passed to
the evaluator and the diagnostic renderer (`|id| get_callable(...)`). -/
def mkResolver (interp : Interpreter) : GlobalId → Option CallableDecl :=
  fun id => get_callable interp.store interp.callables interp.package id

/-- External collaborators of `interpret_line`: the in-place fragment
normalization (`run_default_passes_for_fragment`, which may rewrite the
fragment and advance the assigner) and the statement evaluator
(`qsc_eval::eval_stmt`, which receives the statement, the resolver, the
session package and the environment, and returns a value or a runtime error
with the captured call stack, together with the mutated environment). -/
structure Config where
  passes : Assigner → Fragment → Assigner × Fragment
  evalStmt : Stmt → (GlobalId → Option CallableDecl) → PackageId → Env →
    Except (EvalError × CallStack) Value × Env

/-- Diagnostic renderer entry point (`Interpreter::render_call_stack`):
renders via the same resolution capability used for execution. -/
def render_call_stack (interp : Interpreter) (call_stack : CallStack)
    (error : EvalError) : Trace :=
  format_call_stack (mkResolver interp) call_stack error

/-- Body of the dispatcher loop for one fragment (`match fragment` inside
`interpret_line`): run the passes, then either register a callable and reset
the running result to unit, discard a non-callable item, evaluate a
statement (returning its single runtime diagnostic on failure), or return
the batch of compile diagnostics. -/
def interpretFragment (cfg : Config) (line : String) (interp : Interpreter)
    (result : Value) (fragment : Fragment) :
    Interpreter × Except (List LineError) Value :=
  match cfg.passes interp.assigner fragment with
  | (asg, Fragment.item it) =>
    match it.kind with
    | ItemKind.callable decl =>
      ({ interp with
          assigner := asg
          callables := insertCallable interp.callables it.id decl },
        Except.ok Value.unit)
    | ItemKind.other => ({ interp with assigner := asg }, Except.ok result)
  | (asg, Fragment.stmt s) =>
    match cfg.evalStmt s (mkResolver { interp with assigner := asg })
        interp.package interp.env with
    | (Except.ok value, env) =>
      ({ interp with assigner := asg, env := env }, Except.ok value)
    | (Except.error (error, call_stack), env) =>
      ({ interp with assigner := asg, env := env },
        Except.error [⟨line, LineErrorKind.eval error,
          if call_stack.isEmpty then none
          else
            some (render_call_stack { interp with assigner := asg, env := env }
              call_stack error)⟩])
  | (asg, Fragment.error e es) =>
    ({ interp with assigner := asg },
      Except.error
        ((e :: es).map fun err => ⟨line, LineErrorKind.compile err, none⟩))

/-- Dispatcher loop (`for mut fragment in self.compiler.compile_fragments`):
process the fragments strictly in order, threading the session state and the
running result, stopping at the first fragment that returns diagnostics. -/
def interpretFragments (cfg : Config) (line : String) :
    Interpreter → Value → List Fragment →
    Interpreter × Except (List LineError) Value
  | interp, result, [] => (interp, Except.ok result)
  | interp, result, fragment :: rest =>
    match interpretFragment cfg line interp result fragment with
    | (interp', Except.ok result') =>
      interpretFragments cfg line interp' result' rest
    | (interp', Except.error errs) => (interp', Except.error errs)

/-- Line entry point (`Interpreter::interpret_line`): the running result
starts at the unit value; `fragments` is the sequence the incremental
compiler produced for `line`. -/
def interpret_line (cfg : Config) (interp : Interpreter) (line : String)
    (fragments : List Fragment) :
    Interpreter × Except (List LineError) Value :=
  interpretFragments cfg line interp Value.unit fragments

/-- Initial source map handed to construction
(`qsc_frontend::compile::SourceMap`); opaque to this core. -/
abbrev SourceMap := Nat

/-- External collaborators of `Interpreter::new`: the compiled standard
library (`compile::std()`), the frontend compiler (`compile::compile`, a
function of the store, the dependency list and the sources), and the
incremental compiler constructor (`Compiler::new`, yielding the initial
assigner state). -/
structure NewConfig where
  stdUnit : CompileUnit
  compileSources : PackageStore → List PackageId → SourceMap →
    CompileUnit × List FrontendError
  compilerNew : PackageStore → List PackageId → Assigner

/-- Store and dependency list after the optional standard-library insertion
(lines 74–78 of `stateful.rs`). -/
def initialStore (cfg : NewConfig) (std : Bool) :
    PackageStore × List PackageId :=
  if std then
    let r := PackageStore.new.insert cfg.stdUnit
    (r.1, [r.2])
  else (PackageStore.new, [])

/-- Session construction (`Interpreter::new`): optionally preload the
standard library, compile the initial sources against it, fail with the
collected diagnostics if any were produced, and otherwise build the session
around a fresh empty package whose handle is the reserved session package,
with an empty callable table and a single-empty-scope environment. -/
def Interpreter.new (cfg : NewConfig) (std : Bool) (sources : SourceMap) :
    Except (List CompileError) Interpreter :=
  let sd := initialStore cfg std
  let ue := cfg.compileSources sd.1 sd.2 sources
  if !ue.2.isEmpty then
    Except.error (ue.2.map fun e => CompileError.mk e)
  else
    let r1 := sd.1.insert ue.1
    let dependencies := sd.2 ++ [r1.2]
    let r2 := r1.1.insert CompileUnit.default
    Except.ok
      { store := r2.1
        package := r2.2
        assigner := cfg.compilerNew r2.1 dependencies
        callables := fun _ => none
        env := Env.with_empty_scope }

/-! ### Infrastructure lemmas -/

/-- Processing a concatenation of fragment sequences runs the first part and,
unless it returned diagnostics, continues with the second from the resulting
state and running result. -/
theorem interpretFragments_append (cfg : Config) (line : String)
    (xs ys : List Fragment) :
    ∀ (interp : Interpreter) (v : Value),
    interpretFragments cfg line interp v (xs ++ ys) =
      match interpretFragments cfg line interp v xs with
      | (i, Except.ok w) => interpretFragments cfg line i w ys
      | (i, Except.error es) => (i, Except.error es) := by
  induction xs with
  | nil => intro interp v; simp [interpretFragments]
  | cons f fs ih =>
    intro interp v
    simp only [List.cons_append, interpretFragments]
    rcases h : interpretFragment cfg line interp v f with ⟨i1, r⟩
    cases r with
    | ok w => simp [ih]
    | error es => simp

/-- Processing one fragment never touches the frozen store or the session
package handle. -/
theorem interpretFragment_frozen (cfg : Config) (line : String)
    (interp : Interpreter) (v : Value) (f : Fragment) :
    (interpretFragment cfg line interp v f).1.store = interp.store ∧
    (interpretFragment cfg line interp v f).1.package = interp.package := by
  unfold interpretFragment
  rcases h : cfg.passes interp.assigner f with ⟨asg, fr⟩
  cases fr with
  | item it =>
    rcases it with ⟨iid, ik⟩
    cases ik <;> simp
  | stmt s =>
    dsimp only
    rcases he : cfg.evalStmt s (mkResolver { interp with assigner := asg })
      interp.package interp.env with ⟨r, env⟩
    cases r with
    | ok w => simp
    | error p => rcases p with ⟨e, cs⟩; simp
  | error e es => simp

/-- Processing a fragment sequence never touches the frozen store or the
session package handle. -/
theorem interpretFragments_frozen (cfg : Config) (line : String)
    (fs : List Fragment) :
    ∀ (interp : Interpreter) (v : Value),
    (interpretFragments cfg line interp v fs).1.store = interp.store ∧
    (interpretFragments cfg line interp v fs).1.package = interp.package := by
  induction fs with
  | nil => intro interp v; simp [interpretFragments]
  | cons f fs ih =>
    intro interp v
    simp only [interpretFragments]
    rcases h : interpretFragment cfg line interp v f with ⟨i1, r⟩
    have hf := interpretFragment_frozen cfg line interp v f
    rw [h] at hf
    cases r with
    | ok w =>
      have := ih i1 w
      simp only []
      exact ⟨by rw [this.1, hf.1], by rw [this.2, hf.2]⟩
    | error es => exact hf

/-- Resolution of a reference outside the session package reads only the
frozen store, never the session callable table. -/
theorem get_callable_indep (store : PackageStore)
    (c1 c2 : LocalItemId → Option CallableDecl) (package : PackageId)
    (id : GlobalId) (h : id.package ≠ package) :
    get_callable store c1 package id = get_callable store c2 package id := by
  unfold get_callable
  rw [if_neg h, if_neg h]

/-- Diagnostics returned by one fragment step are never an empty list. -/
theorem interpretFragment_error_nonempty (cfg : Config) (line : String)
    (interp : Interpreter) (v : Value) (f : Fragment)
    (errs : List LineError)
    (h : (interpretFragment cfg line interp v f).2 = Except.error errs) :
    errs ≠ [] := by
  revert h
  unfold interpretFragment
  rcases hp : cfg.passes interp.assigner f with ⟨asg, fr⟩
  cases fr with
  | item it =>
    rcases it with ⟨iid, ik⟩
    cases ik <;> simp
  | stmt s =>
    dsimp only
    rcases he : cfg.evalStmt s (mkResolver { interp with assigner := asg })
      interp.package interp.env with ⟨r, env⟩
    cases r with
    | ok w => simp
    | error p =>
      rcases p with ⟨e, cs⟩
      intro h
      simp only [Except.error.injEq] at h
      rw [← h]
      simp
  | error e es =>
    intro h
    simp only [Except.error.injEq] at h
    rw [← h]
    simp

/-- Test whether every fragment of the sequence, as rewritten by the pass
pipeline from the given assigner state onwards, is an item (so the line
contains no statement fragment and no error batch). -/
def itemsOnly (cfg : Config) : Assigner → List Fragment → Bool
  | _, [] => true
  | asg, f :: fs =>
    match cfg.passes asg f with
    | (asg', Fragment.item _) => itemsOnly cfg asg' fs
    | _ => false

/-- Test whether every fragment of the sequence, as rewritten by the pass
pipeline from the given assigner state onwards, is a non-callable item — the
one fragment kind the dispatcher discards without touching the running
result. -/
def nonAffecting (cfg : Config) : Assigner → List Fragment → Bool
  | _, [] => true
  | asg, f :: fs =>
    match cfg.passes asg f with
    | (asg', Fragment.item it) =>
      match it.kind with
      | ItemKind.other => nonAffecting cfg asg' fs
      | _ => false
    | _ => false

/-- Processing a line made only of item fragments keeps the running result
at the unit value. -/
theorem itemsOnly_unit (cfg : Config) (line : String) (fs : List Fragment) :
    ∀ interp : Interpreter, itemsOnly cfg interp.assigner fs = true →
    (interpretFragments cfg line interp Value.unit fs).2 =
      Except.ok Value.unit := by
  induction fs with
  | nil => intro interp _; rfl
  | cons f fs ih =>
    intro interp
    simp only [itemsOnly, interpretFragments, interpretFragment]
    rcases hp : cfg.passes interp.assigner f with ⟨asg, fr⟩
    cases fr with
    | item it =>
      rcases it with ⟨iid, ik⟩
      cases ik with
      | callable d =>
        intro h
        exact ih { interp with
          assigner := asg
          callables := insertCallable interp.callables iid d } h
      | other =>
        intro h
        exact ih { interp with assigner := asg } h
    | stmt s => intro h; exact absurd h Bool.false_ne_true
    | error e es => intro h; exact absurd h Bool.false_ne_true

/-- Processing a sequence of non-callable item fragments preserves the
running result. -/
theorem nonAffecting_value (cfg : Config) (line : String)
    (fs : List Fragment) :
    ∀ (interp : Interpreter) (v : Value),
    nonAffecting cfg interp.assigner fs = true →
    (interpretFragments cfg line interp v fs).2 = Except.ok v := by
  induction fs with
  | nil => intro interp v _; rfl
  | cons f fs ih =>
    intro interp v
    simp only [nonAffecting, interpretFragments, interpretFragment]
    rcases hp : cfg.passes interp.assigner f with ⟨asg, fr⟩
    cases fr with
    | item it =>
      rcases it with ⟨iid, ik⟩
      cases ik with
      | callable d => intro h; exact absurd h Bool.false_ne_true
      | other =>
        intro h
        exact ih { interp with assigner := asg } v h
    | stmt s => intro h; exact absurd h Bool.false_ne_true
    | error e es => intro h; exact absurd h Bool.false_ne_true

/-! ### Concrete fixtures used by witnesses -/

/-- Identity pass pipeline paired with an evaluator that always succeeds. -/
def sampleCfg : Config :=
  ⟨fun a f => (a, f), fun _ _ _ env => (Except.ok (Value.int 7), env)⟩

/-- Fresh session with an empty store, an empty callable table and the
single empty session scope. -/
def sampleInterp : Interpreter := ⟨⟨[]⟩, 0, 0, fun _ => none, ⟨[[]]⟩⟩

/-- Store holding one frozen package whose item 0 is a callable with body 9. -/
def sampleStore : PackageStore :=
  ⟨[⟨⟨fun i => if i = 0 then some ⟨0, ItemKind.callable 9⟩ else none⟩⟩]⟩

/-- The single compile unit of `sampleStore`. -/
def sampleUnit : CompileUnit :=
  ⟨⟨fun i => if i = 0 then some ⟨0, ItemKind.callable 9⟩ else none⟩⟩

/-- Construction collaborators whose frontend compiler always succeeds. -/
def sampleNewCfg : NewConfig :=
  ⟨CompileUnit.default, fun _ _ _ => (CompileUnit.default, []), fun _ _ => 0⟩

/-- Fragment declaring callable 5 under local id 0. -/
def sampleItemFrag : Fragment := Fragment.item ⟨0, ItemKind.callable 5⟩

/-! ### Claim theorems -/

/-- C3: for every global reference, a session-package reference is resolved
in the session callable table only (absence there yields `none`); any other
reference is resolved through the frozen store, and every failure — package
absent, item absent, or item not a callable declaration — uniformly yields
`none`, while a callable item yields its declaration. -/
theorem get_callable_resolution (store : PackageStore)
    (callables : LocalItemId → Option CallableDecl) (package : PackageId)
    (id : GlobalId) :
    (id.package = package →
      get_callable store callables package id = callables id.item) ∧
    (id.package = package → callables id.item = none →
      get_callable store callables package id = none) ∧
    (id.package ≠ package → store.get id.package = none →
      get_callable store callables package id = none) ∧
    (∀ u, id.package ≠ package → store.get id.package = some u →
      u.package.items id.item = none →
      get_callable store callables package id = none) ∧
    (∀ u it, id.package ≠ package → store.get id.package = some u →
      u.package.items id.item = some it →
      (∀ d, it.kind ≠ ItemKind.callable d) →
      get_callable store callables package id = none) ∧
    (∀ u it d, id.package ≠ package → store.get id.package = some u →
      u.package.items id.item = some it → it.kind = ItemKind.callable d →
      get_callable store callables package id = some d) := by
  refine ⟨?_, ?_, ?_, ?_, ?_, ?_⟩
  · intro h; simp [get_callable, h]
  · intro h h2; simp [get_callable, h, h2]
  · intro h h2; simp [get_callable, h, h2, Option.bind]
  · intro u h h2 h3; simp [get_callable, h, h2, h3, Option.bind]
  · intro u it h h2 h3 hk
    rcases it with ⟨iid, ik⟩
    cases ik with
    | callable d => exact absurd rfl (hk d)
    | other => simp [get_callable, h, h2, h3, Option.bind]
  · intro u it d h h2 h3 h4
    simp [get_callable, h, h2, h3, h4, Option.bind]

/-- Witness for C3: the frozen-store success path at a concrete store. -/
theorem get_callable_resolution_witness :
    (GlobalId.mk 0 0).package ≠ (5 : PackageId) ∧
    get_callable sampleStore (fun _ => none) 5 ⟨0, 0⟩ = some 9 :=
  ⟨by decide,
    (get_callable_resolution sampleStore (fun _ => none) 5 ⟨0, 0⟩).2.2.2.2.2
      sampleUnit ⟨0, ItemKind.callable 9⟩ 9 (by decide) rfl rfl rfl⟩

/-- C10: resolution of a reference outside the session package yields the
same result for any two contents of the session callable table, so adding
session-local declarations between two queries of a frozen-store reference
changes neither query's outcome. -/
theorem frozen_resolution_session_independent (store : PackageStore)
    (c1 c2 : LocalItemId → Option CallableDecl) (package : PackageId)
    (id : GlobalId) (h : id.package ≠ package) :
    get_callable store c1 package id = get_callable store c2 package id :=
  get_callable_indep store c1 c2 package id h

/-- Witness for C10: an empty and a populated session table agree on a
frozen-store reference. -/
theorem frozen_resolution_session_independent_witness :
    (GlobalId.mk 0 0).package ≠ (5 : PackageId) ∧
    get_callable sampleStore (fun _ => none) 5 ⟨0, 0⟩ =
      get_callable sampleStore (fun j => if j = 0 then some 1 else none) 5
        ⟨0, 0⟩ :=
  ⟨by decide,
    frozen_resolution_session_independent sampleStore (fun _ => none)
      (fun j => if j = 0 then some 1 else none) 5 ⟨0, 0⟩ (by decide)⟩

/-- Shape of the loop result: a value, or a non-empty diagnostic list. -/
theorem interpretFragments_result_shape (cfg : Config) (line : String)
    (fs : List Fragment) :
    ∀ (interp : Interpreter) (v : Value),
    (∃ w, (interpretFragments cfg line interp v fs).2 = Except.ok w) ∨
    (∃ errs, (interpretFragments cfg line interp v fs).2 = Except.error errs ∧
      errs ≠ []) := by
  induction fs with
  | nil => intro interp v; left; exact ⟨v, rfl⟩
  | cons f fs ih =>
    intro interp v
    simp only [interpretFragments]
    rcases hstep : interpretFragment cfg line interp v f with ⟨i1, r⟩
    cases r with
    | ok w => exact ih i1 w
    | error es =>
      right
      refine ⟨es, rfl, ?_⟩
      exact interpretFragment_error_nonempty cfg line interp v f es
        (by rw [hstep])

/-- C8: for every input line, `interpret_line` returns either a single
result value or a non-empty list of diagnostics; it never returns an error
carrying an empty list. -/
theorem interpret_line_result_shape (cfg : Config) (interp : Interpreter)
    (line : String) (fragments : List Fragment) :
    (∃ v, (interpret_line cfg interp line fragments).2 = Except.ok v) ∨
    (∃ errs, (interpret_line cfg interp line fragments).2 = Except.error errs ∧
      errs ≠ []) :=
  interpretFragments_result_shape cfg line fragments interp Value.unit

/-- C6: dispatching a callable-declaration fragment inserts the body into
the callable table keyed by its local id, overwriting any prior body at that
id and leaving every other id unchanged, and a subsequent session-package
resolution of that id yields the new body. -/
theorem callable_insert_last_write_wins (cfg : Config) (line : String)
    (interp : Interpreter) (v : Value) (f : Fragment) (asg : Assigner)
    (id : LocalItemId) (decl : CallableDecl) (i1 : Interpreter)
    (r : Except (List LineError) Value)
    (hp : cfg.passes interp.assigner f =
      (asg, Fragment.item ⟨id, ItemKind.callable decl⟩))
    (hstep : interpretFragment cfg line interp v f = (i1, r)) :
    r = Except.ok Value.unit ∧
    i1.callables = insertCallable interp.callables id decl ∧
    i1.callables id = some decl ∧
    (∀ j, j ≠ id → i1.callables j = interp.callables j) ∧
    get_callable i1.store i1.callables i1.package ⟨i1.package, id⟩ =
      some decl := by
  unfold interpretFragment at hstep
  rw [hp] at hstep
  simp only [Prod.mk.injEq] at hstep
  obtain ⟨h1, h2⟩ := hstep
  subst h1
  subst h2
  refine ⟨rfl, rfl, ?_, ?_, ?_⟩
  · simp [insertCallable]
  · intro j hj; simp [insertCallable, hj]
  · simp [get_callable, insertCallable]

/-- Witness for C6: declaring callable 5 under id 0 in a fresh session makes
the session reference resolve to body 5. -/
theorem callable_insert_last_write_wins_witness :
    get_callable (⟨[]⟩ : PackageStore) (insertCallable (fun _ => none) 0 5) 0
      ⟨0, 0⟩ = some 5 :=
  (callable_insert_last_write_wins sampleCfg "x" sampleInterp Value.unit
    sampleItemFrag 0 0 5
    ⟨⟨[]⟩, 0, 0, insertCallable (fun _ => none) 0 5, ⟨[[]]⟩⟩
    (Except.ok Value.unit) rfl rfl).2.2.2.2

/-- C9: construction fails exactly when compiling the initial sources
produces at least one diagnostic — then the returned error list is non-empty
and no instance exists — and on success the instance has an empty callable
table and a binding environment holding only one empty session scope. -/
theorem interpreter_new_contract (cfg : NewConfig) (std : Bool)
    (sources : SourceMap) :
    ((cfg.compileSources (initialStore cfg std).1 (initialStore cfg std).2
        sources).2 = [] →
      ∃ i, Interpreter.new cfg std sources = Except.ok i ∧
        i.callables = (fun _ => none) ∧ i.env = Env.with_empty_scope) ∧
    ((cfg.compileSources (initialStore cfg std).1 (initialStore cfg std).2
        sources).2 ≠ [] →
      ∃ errs, Interpreter.new cfg std sources = Except.error errs ∧
        errs ≠ []) := by
  constructor
  · intro h
    simp only [Interpreter.new]
    rw [h]
    refine ⟨_, rfl, rfl, rfl⟩
  · intro h
    rcases hl : (cfg.compileSources (initialStore cfg std).1
        (initialStore cfg std).2 sources).2 with _ | ⟨e, es⟩
    · exact absurd hl h
    · refine ⟨(e :: es).map fun x => CompileError.mk x, ?_, by simp⟩
      simp [Interpreter.new, hl]

/-- Witness for C9: a frontend compiler that reports no diagnostics yields
an instance with an empty table and a single empty scope. -/
theorem interpreter_new_contract_witness :
    (sampleNewCfg.compileSources (initialStore sampleNewCfg true).1
      (initialStore sampleNewCfg true).2 0).2 = [] ∧
    ∃ i, Interpreter.new sampleNewCfg true 0 = Except.ok i ∧
      i.callables = (fun _ => none) ∧ i.env = Env.with_empty_scope :=
  ⟨rfl, (interpreter_new_contract sampleNewCfg true 0).1 rfl⟩

/-- Identity pass pipeline paired with an evaluator that always fails at top
level (empty captured call stack). -/
def failCfg : Config :=
  ⟨fun a f => (a, f), fun _ _ _ env => (Except.error (3, []), env)⟩

/-- Identity pass pipeline paired with an evaluator that always fails inside
a call chain of depth two. -/
def failStackCfg : Config :=
  ⟨fun a f => (a, f),
    fun _ _ _ env => (Except.error (3, [⟨⟨0, 0⟩, 0⟩, ⟨⟨0, 1⟩, 1⟩]), env)⟩

/-- Session that already holds callable body 1 under local id 0. -/
def redeclInterp : Interpreter :=
  ⟨⟨[]⟩, 0, 0, fun j => if j = 0 then some 1 else none, ⟨[[]]⟩⟩

/-- Session whose frozen store is `sampleStore` and whose reserved session
package handle is 5. -/
def storeInterp : Interpreter := ⟨sampleStore, 5, 0, fun _ => none, ⟨[[]]⟩⟩

/-- C1: when the fragments before `f` all succeed and `f` is rewritten by
the passes to a statement whose evaluation fails, the line returns exactly
one diagnostic, of the runtime (evaluate) kind, and the remaining fragments
are never processed — the outcome is the same as if the line ended at `f`. -/
theorem eval_failure_stops_line (cfg : Config) (line : String)
    (interp0 i1 : Interpreter) (fa rest : List Fragment) (f : Fragment)
    (v1 : Value) (asg : Assigner) (s : Stmt) (e : EvalError) (cs : CallStack)
    (env1 : Env)
    (h1 : interpretFragments cfg line interp0 Value.unit fa =
      (i1, Except.ok v1))
    (hp : cfg.passes i1.assigner f = (asg, Fragment.stmt s))
    (he : cfg.evalStmt s (mkResolver { i1 with assigner := asg }) i1.package
      i1.env = (Except.error (e, cs), env1)) :
    (∃ err, (interpret_line cfg interp0 line (fa ++ f :: rest)).2 =
        Except.error [err] ∧ err.kind = LineErrorKind.eval e) ∧
    interpret_line cfg interp0 line (fa ++ f :: rest) =
      interpret_line cfg interp0 line (fa ++ [f]) := by
  unfold interpret_line
  rw [interpretFragments_append cfg line fa (f :: rest) interp0 Value.unit,
    interpretFragments_append cfg line fa [f] interp0 Value.unit, h1]
  constructor
  · simp only [interpretFragments, interpretFragment, hp, he]
    exact ⟨_, rfl, rfl⟩
  · simp only [interpretFragments, interpretFragment, hp, he]

/-- Witness for C1: a top-level runtime failure after an untouched prelude,
with a trailing fragment that is never reached. -/
theorem eval_failure_stops_line_witness :
    (∃ err, (interpret_line failCfg sampleInterp "w"
        ([] ++ Fragment.stmt 0 :: [Fragment.stmt 1])).2 =
        Except.error [err] ∧ err.kind = LineErrorKind.eval 3) ∧
    interpret_line failCfg sampleInterp "w"
        ([] ++ Fragment.stmt 0 :: [Fragment.stmt 1]) =
      interpret_line failCfg sampleInterp "w" ([] ++ [Fragment.stmt 0]) :=
  eval_failure_stops_line failCfg "w" sampleInterp sampleInterp []
    [Fragment.stmt 1] (Fragment.stmt 0) Value.unit 0 0 3 [] ⟨[[]]⟩
    rfl rfl rfl

/-- C2: when the line aborts — at a statement whose evaluation fails or at
an error-batch fragment — the returned session state is exactly the state
accumulated by the earlier successful fragments (callable table unchanged by
the abort, environment only updated by the failing evaluation itself): no
mutation is rolled back. -/
theorem no_rollback_on_line_failure (cfg : Config) (line : String)
    (interp0 i1 : Interpreter) (fa rest : List Fragment) (f : Fragment)
    (v1 : Value)
    (h1 : interpretFragments cfg line interp0 Value.unit fa =
      (i1, Except.ok v1)) :
    (∀ asg s e cs env1,
      cfg.passes i1.assigner f = (asg, Fragment.stmt s) →
      cfg.evalStmt s (mkResolver { i1 with assigner := asg }) i1.package
        i1.env = (Except.error (e, cs), env1) →
      (interpret_line cfg interp0 line (fa ++ f :: rest)).1 =
        { i1 with assigner := asg, env := env1 } ∧
      (interpret_line cfg interp0 line (fa ++ f :: rest)).1.callables =
        i1.callables ∧
      ∃ errs, (interpret_line cfg interp0 line (fa ++ f :: rest)).2 =
        Except.error errs) ∧
    (∀ asg e es,
      cfg.passes i1.assigner f = (asg, Fragment.error e es) →
      (interpret_line cfg interp0 line (fa ++ f :: rest)).1 =
        { i1 with assigner := asg } ∧
      (interpret_line cfg interp0 line (fa ++ f :: rest)).1.callables =
        i1.callables ∧
      (interpret_line cfg interp0 line (fa ++ f :: rest)).1.env = i1.env ∧
      ∃ errs, (interpret_line cfg interp0 line (fa ++ f :: rest)).2 =
        Except.error errs) := by
  constructor
  · intro asg s e cs env1 hp he
    unfold interpret_line
    rw [interpretFragments_append cfg line fa (f :: rest) interp0 Value.unit,
      h1]
    simp [interpretFragments, interpretFragment, hp, he]
  · intro asg e es hp
    unfold interpret_line
    rw [interpretFragments_append cfg line fa (f :: rest) interp0 Value.unit,
      h1]
    simp [interpretFragments, interpretFragment, hp]

/-- Witness for C2: a callable registered by the first fragment of a line
survives the runtime failure of the second fragment. -/
theorem no_rollback_on_line_failure_witness :
    (interpret_line failCfg sampleInterp "w2"
        ([sampleItemFrag] ++ Fragment.stmt 0 :: [])).1 =
      { (⟨⟨[]⟩, 0, 0, insertCallable (fun _ => none) 0 5, ⟨[[]]⟩⟩ :
          Interpreter) with assigner := 0, env := (⟨[[]]⟩ : Env) } ∧
    (interpret_line failCfg sampleInterp "w2"
        ([sampleItemFrag] ++ Fragment.stmt 0 :: [])).1.callables =
      insertCallable (fun _ => none) 0 5 ∧
    ∃ errs, (interpret_line failCfg sampleInterp "w2"
        ([sampleItemFrag] ++ Fragment.stmt 0 :: [])).2 = Except.error errs :=
  (no_rollback_on_line_failure failCfg "w2" sampleInterp
    ⟨⟨[]⟩, 0, 0, insertCallable (fun _ => none) 0 5, ⟨[[]]⟩⟩
    [sampleItemFrag] [] (Fragment.stmt 0) Value.unit rfl).1
    0 0 3 [] ⟨[[]]⟩ rfl rfl

/-- C4: a runtime diagnostic carries a rendered call-stack trace exactly
when the captured call stack is non-empty, and the trace then renders one
entry per captured frame; diagnostics of a compile error batch never carry a
trace. -/
theorem stack_trace_iff_nonempty_stack (cfg : Config) (line : String)
    (interp0 i1 : Interpreter) (fa rest : List Fragment) (f : Fragment)
    (v1 : Value)
    (h1 : interpretFragments cfg line interp0 Value.unit fa =
      (i1, Except.ok v1)) :
    (∀ asg s e cs env1,
      cfg.passes i1.assigner f = (asg, Fragment.stmt s) →
      cfg.evalStmt s (mkResolver { i1 with assigner := asg }) i1.package
        i1.env = (Except.error (e, cs), env1) →
      ∃ err, (interpret_line cfg interp0 line (fa ++ f :: rest)).2 =
          Except.error [err] ∧
        (cs = [] → err.stack_trace = none) ∧
        (cs ≠ [] → ∃ t, err.stack_trace = some t ∧
          t.frames.length = cs.length)) ∧
    (∀ asg e es,
      cfg.passes i1.assigner f = (asg, Fragment.error e es) →
      ∃ errs, (interpret_line cfg interp0 line (fa ++ f :: rest)).2 =
          Except.error errs ∧
        ∀ err ∈ errs, err.stack_trace = none) := by
  constructor
  · intro asg s e cs env1 hp he
    unfold interpret_line
    rw [interpretFragments_append cfg line fa (f :: rest) interp0 Value.unit,
      h1]
    simp only [interpretFragments, interpretFragment, hp, he]
    refine ⟨_, rfl, ?_, ?_⟩
    · intro hcs
      simp [hcs]
    · intro hcs
      have hie : cs.isEmpty = false := by
        cases cs with
        | nil => exact absurd rfl hcs
        | cons a l => rfl
      refine ⟨render_call_stack { i1 with assigner := asg, env := env1 }
        cs e, ?_, ?_⟩
      · simp [hie]
      · simp [render_call_stack, format_call_stack]
  · intro asg e es hp
    unfold interpret_line
    rw [interpretFragments_append cfg line fa (f :: rest) interp0 Value.unit,
      h1]
    simp only [interpretFragments, interpretFragment, hp]
    refine ⟨_, rfl, ?_⟩
    intro err hmem
    rcases List.mem_map.mp hmem with ⟨x, _, hx⟩
    rw [← hx]

/-- Witness for C4: a failure captured inside a call chain of depth two
yields a trace rendering exactly two frames. -/
theorem stack_trace_iff_nonempty_stack_witness :
    ∃ err, (interpret_line failStackCfg sampleInterp "w3"
        ([] ++ Fragment.stmt 0 :: [])).2 = Except.error [err] ∧
      (([⟨⟨0, 0⟩, 0⟩, ⟨⟨0, 1⟩, 1⟩] : CallStack) = [] →
        err.stack_trace = none) ∧
      (([⟨⟨0, 0⟩, 0⟩, ⟨⟨0, 1⟩, 1⟩] : CallStack) ≠ [] →
        ∃ t, err.stack_trace = some t ∧
          t.frames.length = ([⟨⟨0, 0⟩, 0⟩, ⟨⟨0, 1⟩, 1⟩] : CallStack).length) :=
  (stack_trace_iff_nonempty_stack failStackCfg "w3" sampleInterp sampleInterp
    [] [] (Fragment.stmt 0) Value.unit rfl).1
    0 0 3 [⟨⟨0, 0⟩, 0⟩, ⟨⟨0, 1⟩, 1⟩] ⟨[[]]⟩ rfl rfl

/-- C5: on an all-success line the returned value is the unit value when
every passed fragment is an item (pure declarations only), the unit value
when the last value-affecting fragment is a callable declaration, and the
evaluated statement's value when the last value-affecting fragment is a
statement. -/
theorem all_success_result_value (cfg : Config) (line : String)
    (interp0 : Interpreter) (fragments : List Fragment) :
    (itemsOnly cfg interp0.assigner fragments = true →
      (interpret_line cfg interp0 line fragments).2 =
        Except.ok Value.unit) ∧
    (∀ fa f rest i1 v1 asg iid decl,
      fragments = fa ++ f :: rest →
      interpretFragments cfg line interp0 Value.unit fa =
        (i1, Except.ok v1) →
      cfg.passes i1.assigner f =
        (asg, Fragment.item ⟨iid, ItemKind.callable decl⟩) →
      nonAffecting cfg asg rest = true →
      (interpret_line cfg interp0 line fragments).2 =
        Except.ok Value.unit) ∧
    (∀ fa f rest i1 v1 asg s w env1,
      fragments = fa ++ f :: rest →
      interpretFragments cfg line interp0 Value.unit fa =
        (i1, Except.ok v1) →
      cfg.passes i1.assigner f = (asg, Fragment.stmt s) →
      cfg.evalStmt s (mkResolver { i1 with assigner := asg }) i1.package
        i1.env = (Except.ok w, env1) →
      nonAffecting cfg asg rest = true →
      (interpret_line cfg interp0 line fragments).2 = Except.ok w) := by
  refine ⟨?_, ?_, ?_⟩
  · intro h
    exact itemsOnly_unit cfg line fragments interp0 h
  · intro fa f rest i1 v1 asg iid decl hsplit h1 hp hrest
    subst hsplit
    unfold interpret_line
    rw [interpretFragments_append cfg line fa (f :: rest) interp0 Value.unit,
      h1]
    simp only [interpretFragments, interpretFragment, hp]
    exact nonAffecting_value cfg line rest
      { i1 with
        assigner := asg
        callables := insertCallable i1.callables iid decl }
      Value.unit hrest
  · intro fa f rest i1 v1 asg s w env1 hsplit h1 hp he hrest
    subst hsplit
    unfold interpret_line
    rw [interpretFragments_append cfg line fa (f :: rest) interp0 Value.unit,
      h1]
    simp only [interpretFragments, interpretFragment, hp, he]
    exact nonAffecting_value cfg line rest
      { i1 with assigner := asg, env := env1 } w hrest

/-- Witness for C5: a line whose single fragment is a successfully evaluated
statement returns that statement's value. -/
theorem all_success_result_value_witness :
    (interpret_line sampleCfg sampleInterp "w4"
      ([] ++ Fragment.stmt 0 :: [])).2 = Except.ok (Value.int 7) :=
  (all_success_result_value sampleCfg "w4" sampleInterp
    ([] ++ Fragment.stmt 0 :: [])).2.2 [] (Fragment.stmt 0) [] sampleInterp
    Value.unit 0 0 (Value.int 7) ⟨[[]]⟩ rfl rfl rfl rfl rfl

/-- C7 counterexample: the claim fails on the code — resolving the session
global reference (0, 0) before and after an `interpret_line` call that
redeclares local id 0 yields two different declarations, so a session
reference's meaning can change during the session's life. -/
theorem session_reference_meaning_changes :
    get_callable redeclInterp.store redeclInterp.callables
      redeclInterp.package ⟨0, 0⟩ = some 1 ∧
    get_callable
      (interpret_line sampleCfg redeclInterp "z"
        [Fragment.item ⟨0, ItemKind.callable 2⟩]).1.store
      (interpret_line sampleCfg redeclInterp "z"
        [Fragment.item ⟨0, ItemKind.callable 2⟩]).1.callables
      (interpret_line sampleCfg redeclInterp "z"
        [Fragment.item ⟨0, ItemKind.callable 2⟩]).1.package ⟨0, 0⟩ =
      some 2 ∧
    some 1 ≠ some 2 := by
  refine ⟨rfl, rfl, by decide⟩

/-- C7 (amended): a global reference whose package is not the session
package never changes meaning across `interpret_line` calls — the frozen
store and the session package handle are untouched and resolution outside
the session package ignores the callable table; a session-package reference
may be rebound by a redeclaration under the same local id. -/
theorem frozen_reference_meaning_stable (cfg : Config) (line : String)
    (interp : Interpreter) (fragments : List Fragment) (id : GlobalId)
    (h : id.package ≠ interp.package) :
    get_callable (interpret_line cfg interp line fragments).1.store
      (interpret_line cfg interp line fragments).1.callables
      (interpret_line cfg interp line fragments).1.package id =
    get_callable interp.store interp.callables interp.package id := by
  have hf := interpretFragments_frozen cfg line fragments interp Value.unit
  unfold interpret_line
  rw [hf.1, hf.2]
  exact get_callable_indep interp.store _ _ interp.package id h

/-- Witness for C7's amended theorem: a frozen-store reference resolves the
same before and after a line that declares a session callable. -/
theorem frozen_reference_meaning_stable_witness :
    (GlobalId.mk 0 0).package ≠ storeInterp.package ∧
    get_callable
        (interpret_line sampleCfg storeInterp "v" [sampleItemFrag]).1.store
        (interpret_line sampleCfg storeInterp "v"
          [sampleItemFrag]).1.callables
        (interpret_line sampleCfg storeInterp "v"
          [sampleItemFrag]).1.package ⟨0, 0⟩ =
      get_callable storeInterp.store storeInterp.callables
        storeInterp.package ⟨0, 0⟩ :=
  ⟨by decide,
    frozen_reference_meaning_stable sampleCfg "v" storeInterp
      [sampleItemFrag] ⟨0, 0⟩ (by decide)⟩

end QscStateful
